import Mathlib

/-!
Shallow embedding of the protocol/session core of the homebridge Jacuzzi spa
plugin (`spaClient`), together with proofs about the claims of its
specification.  Byte sequences are modelled as `List Nat`; every write into a
`Uint8Array` is modelled by `uset`, which truncates the stored value modulo
256 exactly as a JS typed array does.  Time-dependent reads of mutable fields
during `await` loops are modelled by observation sequences `Nat → _`.
-/

namespace SpaPlugin

/-- Write `v` into a byte array: `Uint8Array` stores values modulo 256 and
ignores out-of-range indices. -/
def uset (l : List Nat) (i : Nat) (v : Nat) : List Nat := l.set i (v % 256)

/-- The helper `mod(n, m) = ((n % m) + m) % m` of spaClient (used because the
JS `%` operator is a remainder, not a mathematical mod). -/
def jsMod (n m : Int) : Int := ((n % m) + m) % m

/-- One round of the inner bit loop of `compute_checksum_encrypted`: shift,
mask, take in one input bit, and apply the `0x07` feedback when the top bit
was set. -/
def crcEncRoundBit (c inBit : Nat) : Nat :=
  let bit := c &&& 0x80
  let c2 := ((c <<< 1) &&& 0xff) ||| inBit
  if bit ≠ 0 then c2 ^^^ 0x07 else c2

/-- One byte of the bit-serial CRC loop of `compute_checksum_encrypted`,
MSB first; the source masks with `0xff` after each byte. -/
def crcEncByteStep (crc b : Nat) : Nat :=
  ((List.range 8).foldl (fun c i => crcEncRoundBit c ((b >>> (7 - i)) &&& 1)) crc)
    &&& 0xff

/-- One of the final feedback rounds (no input bit) of
`compute_checksum_encrypted`. -/
def crcEncFinalRound (c : Nat) : Nat :=
  let bit := c &&& 0x80
  let c2 := (c <<< 1) &&& 0xff
  if bit ≠ 0 then c2 ^^^ 0x07 else c2

/-- The final eight feedback rounds of `compute_checksum_encrypted`. -/
def crcEncFinal (crc : Nat) : Nat :=
  (List.range 8).foldl (fun c _ => crcEncFinalRound c) crc

/-- `compute_checksum_encrypted(data, length)`: bit-serial CRC with seed
`0xb5` over the first `length` bytes of `data` (out-of-range reads are 0, as
in JS), one final feedback pass, then XOR with `0x02`. -/
def compute_checksum_encrypted (data : List Nat) (len : Nat) : Nat :=
  crcEncFinal ((List.range len).foldl
    (fun c cur => crcEncByteStep c (data.getD cur 0)) 0xb5) ^^^ 0x02

/-- One shift round of the standard CRC-8. -/
def crc8Round (c : Nat) : Nat :=
  if c &&& 0x80 ≠ 0 then ((c <<< 1) ^^^ 0x07) &&& 0xff else (c <<< 1) &&& 0xff

/-- Modelled from the spec: the plaintext checksum delegates to the external
`crc` npm package's `crc8(buf, seed)` (not part of this repository) — the
standard CRC-8, polynomial 0x07, MSB first, chained from `seed`. -/
def crc8 (data : List Nat) (seed : Nat) : Nat :=
  data.foldl (fun c b =>
    (List.range 8).foldl (fun c2 _ => crc8Round c2) ((c ^^^ b) &&& 0xff)) seed

/-- `compute_checksum(length, bytes) = crc8(length ++ bytes, 0x02) ^ 0x02`. -/
def compute_checksum (len bytes : List Nat) : Nat :=
  crc8 (len ++ bytes) 0x02 ^^^ 0x02

/-- The first-key constant of `decrypt`, per packet type: `0xc4` status,
`0xca` lights, `0xcc` button command; other types are not encrypted. -/
def encKey1Const (t : Nat) : Option Nat :=
  if t = 0xc4 then some 0x19
  else if t = 0xca then some 0x59
  else if t = 0xcc then some 0xdf
  else none

/-- The XOR loop of `decrypt`: `fuel` iterations starting at index `i`; the
position key `key2` is decremented modulo 64 before each byte is combined
with `key1` and `key2`. -/
def decryptLoopAux (key1 : Nat) : Nat → Nat → Int → List Nat → List Nat
  | 0, _, _, p => p
  | n + 1, i, key2, p =>
    let key2' := jsMod (key2 - 1) 64
    decryptLoopAux key1 n (i + 1) key2'
      (uset p i ((p.getD i 0) ^^^ key1 ^^^ key2'.toNat))

/-- `decrypt(packet)`: for encrypted packet types, XOR bytes `6 .. length-1`
with `key1 = packet[5] ^ const` and the decrementing position key starting at
`length - 5 - 2`, zero the key slot `packet[5]`, and rewrite the checksum at
`packet.length - 2`; all other packets are returned unchanged. -/
def decrypt (packet : List Nat) : List Nat :=
  if packet.length < 7 then packet
  else
    match encKey1Const (packet.getD 4 0) with
    | none => packet
    | some c =>
      let key1 := (packet.getD 5 0) ^^^ c
      let packet_length := packet.getD 1 0
      let p1 := decryptLoopAux key1 (packet_length - 6) 6
        ((packet_length : Int) - 7) packet
      let p2 := uset p1 5 0
      uset p2 (p2.length - 2)
        (compute_checksum_encrypted (p2.drop 1) (packet_length - 1))

/-- The `etypes` lookup of `sendMessageToSpa`: unencrypted message types that
have an encrypted equivalent (all map to `0xcc`). -/
def etypes (t : Nat) : Option Nat :=
  if t = 0x11 ∨ t = 0x17 ∨ t = 0x1a ∨ t = 0x1b ∨ t = 0x20 then some 0xcc
  else none

/-- `sendMessageToSpa(type, payload)` modelled as the bytes written to the
socket, or `none` when the function returns without writing.  It frames the
message, computes the encrypted checksum, and — only when the type byte at
offset 4 is in `etypes` — substitutes the encrypted type, inserts the key
byte `0x00` at offset 5, bumps the length byte, runs `decrypt` as the XOR
encryption pass, rewrites the checksum and writes the packet. -/
def sendMessageToSpa (type_ payload : List Nat) : Option (List Nat) :=
  let bytes := type_ ++ payload
  let message_length := bytes.length + 2
  let message := 0x7e :: (message_length % 256) ::
    ((bytes.map (fun b => b % 256)) ++ [0, 0])
  let message := uset message (message.length - 2)
    (compute_checksum_encrypted (message.drop 1) (message_length - 1))
  let message := uset message (message.length - 1) 0x7e
  let packet_type := message.getD 4 0
  match etypes packet_type with
  | none => none
  | some enc =>
    let message := uset message 4 enc
    let packet := message.take 5 ++ [0x00] ++ message.drop 5
    let packet := uset packet 1 (packet.getD 1 0 + 1)
    let packet_length := packet.getD 1 0
    let packet := decrypt packet
    let packet := uset packet (packet.length - 2)
      (compute_checksum_encrypted (packet.drop 1) (packet_length - 1))
    some packet

/-- Result of running the framer over one inbound chunk: the frames handed to
`readAndActOnMessage`, and the buffered incomplete chunk, if any. -/
structure FramerResult where
  frames : List (List Nat)
  pending : Option (List Nat)
  deriving DecidableEq, Repr

/-- The `while` loop of `readAndActOnSocketContents`: chunks shorter than 2
bytes are dropped with an error; a chunk whose declared length exceeds the
available bytes is buffered; otherwise a frame with good sentinels and a good
plaintext checksum is delivered, and parsing continues after it.  Every
iteration consumes at least two bytes, so `fuel` iterations suffice whenever
`fuel` is at least the chunk length (`processChunk` supplies that fuel). -/
def processChunkAux : Nat → List Nat → FramerResult
  | 0, _ => ⟨[], none⟩
  | fuel + 1, chunk =>
    if chunk.length = 0 then ⟨[], none⟩
    else if chunk.length < 2 then ⟨[], none⟩
    else
      let msgLength := chunk.getD 1 0
      if msgLength > chunk.length - 2 then ⟨[], some chunk⟩
      else
        let rest := processChunkAux fuel (chunk.drop (msgLength + 2))
        if chunk.getD 0 0 = 0x7e ∧ chunk.getD (msgLength + 1) 0 = 0x7e then
          if 0 < msgLength then
            let thisMsg := chunk.take (msgLength + 2)
            let checksum := thisMsg.getD msgLength 0
            if checksum =
                compute_checksum [msgLength] ((thisMsg.drop 2).take (msgLength - 2)) then
              ⟨thisMsg :: rest.frames, rest.pending⟩
            else
              ⟨rest.frames, rest.pending⟩
          else rest
        else rest

def processChunk (chunk : List Nat) : FramerResult :=
  processChunkAux chunk.length chunk

/-- Result of one call to `readAndActOnSocketContents`: decoded frames, the
new pending fragment, and whether a stale fragment was discarded with a
warning. -/
structure FeedResult where
  frames : List (List Nat)
  pending : Option (List Nat)
  warned : Bool
  deriving DecidableEq, Repr

/-- `readAndActOnSocketContents`: if a pending incomplete chunk exists and the
new chunk arrived within 1 second (`freshWithin1s`), the two are concatenated
and parsed together; otherwise the stale fragment is discarded with a warning
and only the new chunk is parsed. -/
def readAndActOnSocketContents (pending : Option (List Nat))
    (freshWithin1s : Bool) (chunk : List Nat) : FeedResult :=
  match pending with
  | none =>
    let r := processChunk chunk
    ⟨r.frames, r.pending, false⟩
  | some old =>
    if freshWithin1s then
      let r := processChunk (old ++ chunk)
      ⟨r.frames, r.pending, false⟩
    else
      let r := processChunk chunk
      ⟨r.frames, r.pending, true⟩

def FLOW_GOOD : String := "Good"
def FLOW_LOW : String := "Low"
def FLOW_FAILED : String := "Failed"
def HEATINGMODES : List String := ["Ready", "Rest", "Ready in Rest"]

/-- The mutable device state of `SpaClient` relevant to the claims. -/
structure SpaState where
  currentTemp : Option Nat
  heatingMode : Option String
  tempRangeIsHigh : Bool
  isHeatingNow : Bool
  isFilterMode : Bool
  tempChangeMode : Bool
  targetTempModeHigh : Option Nat
  targetTempModeLow : Option Nat
  pumpsCurrentSpeed : List Nat
  pumpsSpeedRange : List Nat
  pumpsOverrideSpeed : List Int
  lightIsOn : List (Option Bool)
  accurateConfigReadFromSpa : Bool
  receivedStateUpdate : Bool
  flow : String
  lastStateBytes : List Nat
  lastFaultBytes : List Nat
  deriving DecidableEq, Repr

/-- The state established by the `SpaClient` constructor. -/
def initialSpaState : SpaState where
  currentTemp := none
  heatingMode := some ""
  tempRangeIsHigh := true
  isHeatingNow := false
  isFilterMode := false
  tempChangeMode := false
  targetTempModeHigh := none
  targetTempModeLow := none
  pumpsCurrentSpeed := [0, 0, 0, 0, 0, 0]
  pumpsSpeedRange := [0, 2, 1, 0, 0, 0]
  pumpsOverrideSpeed := [-1, -1, -1, -1, -1, -1]
  lightIsOn := [some false, some false]
  accurateConfigReadFromSpa := false
  receivedStateUpdate := true
  flow := FLOW_GOOD
  lastStateBytes := []
  lastFaultBytes := []

/-- `readStateFromBytes(bytes)`: decode the one-per-second status frame into
the device state and report whether a monitored byte (8, 10, 15 or 21)
changed since the previous status frame. -/
def readStateFromBytes (st : SpaState) (bytes : List Nat) : SpaState × Bool :=
  let currentTemp := if bytes.getD 15 0 = 255 then none else some (bytes.getD 15 0)
  let heatingMode := HEATINGMODES[(bytes.getD 18 0 >>> 4) &&& 0x03]?
  let tempRangeIsHigh := (bytes.getD 10 0 &&& 4) ≠ 0
  let isHeatingNow := ((bytes.getD 26 0 >>> 6) &&& 1) = 1
  let isFilterMode := (bytes.getD 26 0 >>> 7) = 1
  let pump1Speed : Nat :=
    if ((bytes.getD 10 0 >>> 3) &&& 3) = 1 then 0
    else if ((bytes.getD 10 0 >>> 3) &&& 3) = 0 then 1
    else 2
  let pump2Speed := (bytes.getD 8 0 &&& 0x0c) >>> 2
  let tempChangeMode := ((bytes.getD 10 0 >>> 5) &&& 1) = 1
  let targetTempModeHigh :=
    if tempRangeIsHigh then some (bytes.getD 21 0) else st.targetTempModeHigh
  let targetTempModeLow :=
    if tempRangeIsHigh then st.targetTempModeLow else some (bytes.getD 21 0)
  let oldBytes := st.lastStateBytes
  let changed : Bool :=
    if oldBytes.length ≠ bytes.length then true
    else (List.range oldBytes.length).any fun i =>
      decide (i = 8 ∨ i = 10 ∨ i = 15 ∨ i = 21) &&
        decide (oldBytes.getD i 0 ≠ bytes.getD i 0)
  ({ st with
      receivedStateUpdate := true
      currentTemp := currentTemp
      heatingMode := heatingMode
      tempRangeIsHigh := tempRangeIsHigh
      isHeatingNow := isHeatingNow
      isFilterMode := isFilterMode
      tempChangeMode := tempChangeMode
      targetTempModeHigh := targetTempModeHigh
      targetTempModeLow := targetTempModeLow
      pumpsCurrentSpeed := (st.pumpsCurrentSpeed.set 1 pump1Speed).set 2 pump2Speed
      lastStateBytes := bytes }, changed)

/-- `getCurrentTemp()`: the current temperature, `none` when unknown. -/
def getCurrentTemp (st : SpaState) : Option Nat :=
  if st.currentTemp = none then none else st.currentTemp

/-- `getTempRangeIsHigh()`: the source returns
`this.targetTempModeHigh != undefined` (the read of `tempRangeIsHigh` is
commented out). -/
def getTempRangeIsHigh (st : SpaState) : Bool :=
  st.targetTempModeHigh.isSome

/-- `readFaults(bytes)`: decode the most recent fault-log entry; flow health
is degraded only for a fault logged today (`daysAgo = 0`). -/
def readFaults (st : SpaState) (bytes : List Nat) : SpaState × Bool :=
  let daysAgo := bytes.getD 3 0
  let code := bytes.getD 2 0
  if daysAgo > 0 then
    ({ st with flow := FLOW_GOOD, lastFaultBytes := bytes }, false)
  else if code = 16 ∨ code = 28 then
    ({ st with flow := FLOW_LOW, lastFaultBytes := bytes }, true)
  else if code = 17 ∨ code = 27 ∨ code = 30 then
    ({ st with flow := FLOW_FAILED, lastFaultBytes := bytes }, true)
  else
    ({ st with flow := FLOW_GOOD, lastFaultBytes := bytes }, false)

/-- `interpretControlTypesReply()`: first call marks the configuration as
discovered and enables light 1; later calls are no-ops (the pump-decoding
block of the Balboa original is commented out in this repository). -/
def interpretControlTypesReply (st : SpaState) : SpaState × Bool :=
  if st.accurateConfigReadFromSpa then (st, false)
  else
    ({ st with
        lightIsOn := st.lightIsOn.set 0 (some true)
        accurateConfigReadFromSpa := true }, true)

/-- `setPumpSpeed(index, desiredSpeed)`: compute the number of button presses
from the cyclic distance (one fewer in filter mode for pump index 1, whose
desired speed is also raised from Off to Low), press the button while the
observed speed differs from the desired one, then clear the override and
store the desired speed as the provisional current speed.  `obs k` is the
value of `pumpsCurrentSpeed[index]` observed at the k-th loop check (the spa
may update it between the one-second waits); the result is the new state and
the number of presses sent. -/
def setPumpSpeed (st : SpaState) (index desiredSpeed : Nat) (obs : Nat → Nat) :
    SpaState × Nat :=
  let i := index - 1
  if st.pumpsSpeedRange.getD i 0 = 0 then (st, 0)
  else if desiredSpeed > st.pumpsSpeedRange.getD i 0 then (st, 0)
  else
    let desiredSpeed :=
      if st.isFilterMode ∧ i = 1 ∧ desiredSpeed = 0 then 1 else desiredSpeed
    let current := obs 0
    let timesToRun : Int :=
      if desiredSpeed > current then (desiredSpeed : Int) - current
      else if desiredSpeed < current then
        let t : Int := ((st.pumpsSpeedRange.getD i 0 : Int) - current) + (desiredSpeed + 1)
        if st.isFilterMode ∧ i = 1 then t - 1 else t
      else 0
    let presses :=
      ((List.range timesToRun.toNat).filter fun k => decide (obs k ≠ desiredSpeed)).length
    ({ st with
        pumpsCurrentSpeed := st.pumpsCurrentSpeed.set i desiredSpeed
        pumpsOverrideSpeed := st.pumpsOverrideSpeed.set i (-1) }, presses)

/-- The fields of the device state read by `setTargetTemperature`, as
observed at one instant: the two stored setpoints and the
temperature-change-in-progress flag. -/
structure TempObs where
  low : Option Int
  high : Option Int
  tcm : Bool

/-- The expression `this.targetTempModeLow ?? this.targetTempModeHigh ?? 0`. -/
def setTemp (o : TempObs) : Int := o.low.getD (o.high.getD 0)

/-- The JS loose comparison `previousSetTemp != this.targetTempModeLow`
(the `?? this.targetTempModeHigh` after it never applies, since a boolean is
not nullish): true when the low setpoint is undefined or differs. -/
def neqObsLow (prev : Int) (low : Option Int) : Bool :=
  match low with
  | none => true
  | some v => decide (prev ≠ v)

/-- Result of `setTargetTemperature`: the button codes sent (0x01 up, 0x02
down) and the value of `targetTempOverride` when the function returns. -/
structure TempResult where
  buttons : List Nat
  override : Option Int
  deriving DecidableEq, Repr

/-- The retry loop of `setTargetTemperature`: at most `fuel` iterations; when
the previous press has been applied, compare the desired value with the
current setpoint, stop (clearing the override) on convergence, else press Up
or Down; after the one-second wait decide whether the press was applied.
`s k` is the device state observed at tick `k` (the pre-wait reads of
iteration `i` happen at tick `i`, the post-wait check at tick `i + 1`). -/
def setTargetTempAux (temp : Int) (s : Nat → TempObs) (original_temp : Int) :
    Nat → Nat → Bool → Int → List Nat → TempResult
  | _, 0, _, _, buttons => ⟨buttons, none⟩
  | i, fuel + 1, settemp_changed, previousSetTemp, buttons =>
    if settemp_changed then
      let prev := setTemp (s i)
      let reqd : Int := temp - setTemp (s i)
      if reqd ≥ 1 then
        setTargetTempAux temp s original_temp (i + 1) fuel
          (neqObsLow prev (s (i + 1)).low ||
            (decide (prev = original_temp) && (s (i + 1)).tcm))
          prev (buttons ++ [0x01])
      else if reqd ≤ -1 then
        setTargetTempAux temp s original_temp (i + 1) fuel
          (neqObsLow prev (s (i + 1)).low ||
            (decide (prev = original_temp) && (s (i + 1)).tcm))
          prev (buttons ++ [0x02])
      else ⟨buttons, none⟩
    else
      setTargetTempAux temp s original_temp (i + 1) fuel
        (neqObsLow previousSetTemp (s (i + 1)).low ||
          (decide (previousSetTemp = original_temp) && (s (i + 1)).tcm))
        previousSetTemp buttons

/-- `setTargetTemperature(temp)`: 60-iteration budget, starting from the
setpoint observed at tick 0. -/
def setTargetTemperature (temp : Int) (s : Nat → TempObs) : TempResult :=
  setTargetTempAux temp s (setTemp (s 0)) 0 60 true (setTemp (s 0)) []

/-- The session-manager state relevant to reconnection: the `reconnecting`
guard flag, the number of scheduled-but-not-yet-run 20-second reconnect
timers, and the number of `get_socket` calls made so far. -/
structure ConnState where
  reconnecting : Bool
  pendingReconnects : Nat
  connectionsStarted : Nat
  deriving DecidableEq, Repr

def initialConnState : ConnState where
  reconnecting := false
  pendingReconnects := 0
  connectionsStarted := 0

/-- `reconnect(host)`: a no-op while the guard is set; otherwise set the
guard and schedule one reconnect timer. -/
def reconnect (st : ConnState) : ConnState :=
  if st.reconnecting then st
  else { st with reconnecting := true, pendingReconnects := st.pendingReconnects + 1 }

/-- The 20-second timer callback scheduled by `reconnect`: call `get_socket`
and clear the guard. -/
def reconnectTimerFires (st : ConnState) : ConnState :=
  if st.pendingReconnects > 0 then
    { reconnecting := false
      pendingReconnects := st.pendingReconnects - 1
      connectionsStarted := st.connectionsStarted + 1 }
  else st

/-- Constant observation sequences used as concrete witnesses. -/
def obsConst2 : Nat → Nat := fun _ => 2

def tempObs100 : Nat → TempObs := fun _ => ⟨some 100, none, false⟩

/-- The pump-speed invariant of the spec: no pump's current speed exceeds its
declared speed range. -/
def pumpInv (st : SpaState) : Prop :=
  ∀ i, st.pumpsCurrentSpeed.getD i 0 ≤ st.pumpsSpeedRange.getD i 0

/-! ## Helper lemmas -/

theorem uset_length (l : List Nat) (i v : Nat) : (uset l i v).length = l.length := by
  simp [uset]

theorem getD_uset_self {l : List Nat} {i v : Nat} (h : i < l.length) :
    (uset l i v).getD i 0 = v % 256 := by
  simp [uset, List.getD_eq_getElem?_getD, List.getElem?_set_self h]

theorem getD_uset_ne {l : List Nat} (i j v : Nat) (h : i ≠ j) :
    (uset l i v).getD j 0 = l.getD j 0 := by
  simp [uset, List.getD_eq_getElem?_getD, List.getElem?_set_ne h]

theorem getD_drop_one (l : List Nat) (k : Nat) :
    (l.drop 1).getD k 0 = l.getD (k + 1) 0 := by
  cases l <;> simp

theorem jsMod_sixtyfour (n : Int) : jsMod n 64 = n % 64 := by
  unfold jsMod; omega

/-! ## C2: outbound frames with no encrypted equivalent -/

/-- C2: the claim says such frames are sent unmodified; in fact
`sendMessageToSpa` returns before the socket write, so nothing at all is
sent.  Evaluated here at the failing input: the control-types discovery
request (`PrimaryRequest` type `0a bf 22` with contents `20 ff 00`) produces
no socket write, while an encryptable pump command does. -/
theorem C2_unencryptable_frame_not_sent :
    sendMessageToSpa [0x0a, 0xbf, 0x22] [0x20, 0xff, 0x00] = none ∧
      sendMessageToSpa [0x0a, 0xbf, 0x17] [0x04] ≠ none := by
  constructor
  · rfl
  · decide

/-! ## C7: fault-log decoding -/

/-- C7 counterexample: for a fault that is not from today (`daysAgo = 1`)
with fault code 16, the claim requires flow health Low and a `true` change
signal; the code keeps flow Good and signals no change. -/
theorem C7_counterexample :
    (readFaults initialSpaState [0, 0, 16, 1]).1.flow ≠ FLOW_LOW ∧
      (readFaults initialSpaState [0, 0, 16, 1]).2 = false := by
  decide

/-- C7 (amended: restricted to faults logged today, `daysAgo` byte 3 = 0):
`readFaults` sets flow health to Low for codes 16 and 28, Failed for codes
17, 27 and 30, Good otherwise, and returns `true` exactly for those five
codes. -/
theorem C7_readFaults_flow (st : SpaState) (bytes : List Nat)
    (hd : bytes.getD 3 0 = 0) :
    ((readFaults st bytes).1.flow =
      if bytes.getD 2 0 = 16 ∨ bytes.getD 2 0 = 28 then FLOW_LOW
      else if bytes.getD 2 0 = 17 ∨ bytes.getD 2 0 = 27 ∨ bytes.getD 2 0 = 30 then
        FLOW_FAILED
      else FLOW_GOOD) ∧
    ((readFaults st bytes).2 = true ↔
      (bytes.getD 2 0 = 16 ∨ bytes.getD 2 0 = 28 ∨ bytes.getD 2 0 = 17 ∨
        bytes.getD 2 0 = 27 ∨ bytes.getD 2 0 = 30)) := by
  unfold readFaults
  rw [hd]
  simp only [gt_iff_lt, Nat.lt_irrefl, if_false]
  split_ifs with h1 h2 <;> (simp_all; try tauto)

/-- C7 witness: a fault from today with code 16 degrades flow to Low and
signals a change. -/
theorem C7_witness :
    [0, 0, 16, 0].getD 3 0 = 0 ∧
      (readFaults initialSpaState [0, 0, 16, 0]).1.flow = FLOW_LOW ∧
      (readFaults initialSpaState [0, 0, 16, 0]).2 = true := by
  refine ⟨rfl, ?_, ?_⟩
  · have h := (C7_readFaults_flow initialSpaState [0, 0, 16, 0] rfl).1
    simpa using h
  · exact (C7_readFaults_flow initialSpaState [0, 0, 16, 0] rfl).2.mpr (by decide)

/-! ## C8: unknown temperature sentinel -/

/-- C8: a status frame with temperature byte 255 makes `getCurrentTemp`
report unknown; a subsequent status frame with temperature byte 70 makes it
report 70. -/
theorem C8_temperature_sentinel (st : SpaState) (b1 b2 : List Nat)
    (h1 : b1.getD 15 0 = 255) (h2 : b2.getD 15 0 = 70) :
    getCurrentTemp (readStateFromBytes st b1).1 = none ∧
      getCurrentTemp (readStateFromBytes (readStateFromBytes st b1).1 b2).1 = some 70 := by
  unfold readStateFromBytes getCurrentTemp
  simp only [List.getD_eq_getElem?_getD] at h1 h2
  simp [h1, h2]

/-- C8 witness: concrete 16-byte status frames with temperature byte 255 and
then 70. -/
theorem C8_witness :
    getCurrentTemp (readStateFromBytes initialSpaState
        [0, 0, 0, 0, 0, 0, 0, 0, 0, 0, 0, 0, 0, 0, 0, 255]).1 = none ∧
      getCurrentTemp (readStateFromBytes (readStateFromBytes initialSpaState
        [0, 0, 0, 0, 0, 0, 0, 0, 0, 0, 0, 0, 0, 0, 0, 255]).1
        [0, 0, 0, 0, 0, 0, 0, 0, 0, 0, 0, 0, 0, 0, 0, 70]).1 = some 70 :=
  C8_temperature_sentinel initialSpaState _ _ (by decide) (by decide)

/-! ## C9: reconnect reentrancy guard -/

/-- C9: from an idle session state, three consecutive socket-error events
(each calling `reconnect` within the 20-second delay, before the scheduled
timer runs) leave exactly one scheduled reconnect with the guard set, and
`reconnect` is a no-op whenever the guard is already set. -/
theorem C9_reconnect_guard :
    (∀ st : ConnState, st.reconnecting = false → st.pendingReconnects = 0 →
      (reconnect (reconnect (reconnect st))).pendingReconnects = 1 ∧
        (reconnect (reconnect (reconnect st))).reconnecting = true) ∧
    (∀ st : ConnState, st.reconnecting = true → reconnect st = st) := by
  constructor
  · intro st h0 hp
    simp [reconnect, h0, hp]
  · intro st h
    simp [reconnect, h]

/-- C9 witness: the guard behaviour evaluated from the initial session
state. -/
theorem C9_witness :
    ((reconnect (reconnect (reconnect initialConnState))).pendingReconnects = 1 ∧
      (reconnect (reconnect (reconnect initialConnState))).reconnecting = true) ∧
      reconnect { initialConnState with reconnecting := true } =
        { initialConnState with reconnecting := true } :=
  ⟨C9_reconnect_guard.1 initialConnState (by decide) (by decide),
    C9_reconnect_guard.2 _ (by decide)⟩

/-! ## C10: getTempRangeIsHigh ignores the decoded range flag -/

/-- C10: `getTempRangeIsHigh` returns true exactly when a high-range setpoint
has been recorded (`targetTempModeHigh` defined); it does not read the
`tempRangeIsHigh` flag; a status frame decoded while the device is in high
range (bit 2 of byte 10 set) records the setpoint; and once recorded it
survives any later sequence of status frames, so the getter keeps returning
true. -/
theorem C10_getTempRangeIsHigh :
    (∀ st : SpaState, getTempRangeIsHigh st = st.targetTempModeHigh.isSome) ∧
    (∀ (st : SpaState) (b : Bool),
      getTempRangeIsHigh { st with tempRangeIsHigh := b } = getTempRangeIsHigh st) ∧
    (∀ (st : SpaState) (bytes : List Nat), (bytes.getD 10 0 &&& 4) ≠ 0 →
      (readStateFromBytes st bytes).1.targetTempModeHigh = some (bytes.getD 21 0)) ∧
    (∀ (st : SpaState) (bs : List (List Nat)),
      st.targetTempModeHigh.isSome = true →
      getTempRangeIsHigh (bs.foldl (fun s b => (readStateFromBytes s b).1) st) = true) := by
  refine ⟨fun st => rfl, fun st b => rfl, ?_, ?_⟩
  · intro st bytes h
    unfold readStateFromBytes
    simp only [List.getD_eq_getElem?_getD] at h
    simp [h]
  · have step : ∀ (st : SpaState) (b : List Nat),
        st.targetTempModeHigh.isSome = true →
        (readStateFromBytes st b).1.targetTempModeHigh.isSome = true := by
      intro st b h
      obtain ⟨v, hv⟩ := Option.isSome_iff_exists.mp h
      unfold readStateFromBytes
      dsimp only
      split <;> simp [hv]
    intro st bs
    induction bs generalizing st with
    | nil => intro h; exact h
    | cons b t ih => intro h; exact ih _ (step st b h)

/-- C10 witness: with a recorded high-range setpoint of 100, the getter
returns true, the flag does not influence it, and a high-range frame records
byte 21. -/
theorem C10_witness :
    getTempRangeIsHigh { initialSpaState with targetTempModeHigh := some 100 } =
        ({ initialSpaState with targetTempModeHigh := some 100 } :
          SpaState).targetTempModeHigh.isSome ∧
      (readStateFromBytes initialSpaState
          [0, 0, 0, 0, 0, 0, 0, 0, 0, 0, 4]).1.targetTempModeHigh = some 0 ∧
      getTempRangeIsHigh
        ([[0, 0, 0, 0, 0, 0, 0, 0, 0, 0, 0]].foldl
          (fun s b => (readStateFromBytes s b).1)
          { initialSpaState with targetTempModeHigh := some 100 }) = true :=
  ⟨C10_getTempRangeIsHigh.1 _,
    C10_getTempRangeIsHigh.2.2.1 initialSpaState _ (by decide),
    C10_getTempRangeIsHigh.2.2.2 _ _ (by decide)⟩

/-! ## C4: setTargetTemperature always clears the override -/

/-- One unfolding of the retry loop when fuel remains. -/
theorem setTargetTempAux_succ (temp : Int) (s : Nat → TempObs) (o : Int)
    (i fuel : Nat) (ch : Bool) (prev : Int) (buttons : List Nat) :
    setTargetTempAux temp s o i (fuel + 1) ch prev buttons =
      (if ch then
        (if (temp - setTemp (s i) : Int) ≥ 1 then
          setTargetTempAux temp s o (i + 1) fuel
            (neqObsLow (setTemp (s i)) (s (i + 1)).low ||
              (decide (setTemp (s i) = o) && (s (i + 1)).tcm))
            (setTemp (s i)) (buttons ++ [0x01])
        else if (temp - setTemp (s i) : Int) ≤ -1 then
          setTargetTempAux temp s o (i + 1) fuel
            (neqObsLow (setTemp (s i)) (s (i + 1)).low ||
              (decide (setTemp (s i) = o) && (s (i + 1)).tcm))
            (setTemp (s i)) (buttons ++ [0x02])
        else ⟨buttons, none⟩)
      else
        setTargetTempAux temp s o (i + 1) fuel
          (neqObsLow prev (s (i + 1)).low ||
            (decide (prev = o) && (s (i + 1)).tcm))
          prev buttons) := rfl

theorem setTargetTempAux_override_none (temp : Int) (s : Nat → TempObs) (o : Int) :
    ∀ (fuel i : Nat) (ch : Bool) (prev : Int) (buttons : List Nat),
      (setTargetTempAux temp s o i fuel ch prev buttons).override = none := by
  intro fuel
  induction fuel with
  | zero => intro i ch prev buttons; rfl
  | succ n ih =>
    intro i ch prev buttons
    simp only [setTargetTempAux]
    split_ifs <;> first | rfl | apply ih

/-- C4: `setTargetTemperature` leaves `targetTempOverride` cleared on every
return path — convergence, already-at-setpoint, and budget exhaustion — and
when the desired temperature equals the setpoint observed at the start it
sends zero button commands. -/
theorem C4_setTargetTemperature_cleanup :
    (∀ (temp : Int) (s : Nat → TempObs),
      (setTargetTemperature temp s).override = none) ∧
    (∀ (temp : Int) (s : Nat → TempObs), setTemp (s 0) = temp →
      (setTargetTemperature temp s).buttons = []) := by
  constructor
  · intro temp s
    exact setTargetTempAux_override_none temp s _ _ _ _ _ _
  · intro temp s h
    have h0 : ¬ ((temp - setTemp (s 0) : Int) ≥ 1) := by omega
    have h1 : ¬ ((temp - setTemp (s 0) : Int) ≤ -1) := by omega
    show (setTargetTempAux temp s (setTemp (s 0)) 0 (59 + 1) true (setTemp (s 0)) []).buttons = []
    rw [setTargetTempAux_succ]
    simp only [if_true, if_neg h0, if_neg h1]

/-- C4 witness: with a constant observed setpoint of 100 and a desired
temperature of 100, no buttons are sent and the override ends cleared. -/
theorem C4_witness :
    setTemp (tempObs100 0) = 100 ∧
      (setTargetTemperature 100 tempObs100).override = none ∧
      (setTargetTemperature 100 tempObs100).buttons = [] :=
  ⟨rfl, C4_setTargetTemperature_cleanup.1 100 tempObs100,
    C4_setTargetTemperature_cleanup.2 100 tempObs100 rfl⟩

/-! ## C5: press counts for a 2-speed pump going High to Low -/

/-- C5: a pump with speed range 2 observed at speed 2 (High) throughout,
commanded to speed 1 (Low) as pump number 2 (internal index 1, the filter
pump), sends exactly 2 presses with filter mode off and exactly 1 press with
filter mode on. -/
theorem C5_setPumpSpeed_presses (st : SpaState) (obs : Nat → Nat)
    (hr : st.pumpsSpeedRange.getD 1 0 = 2) (ho : ∀ k, obs k = 2) :
    (st.isFilterMode = false → (setPumpSpeed st 2 1 obs).2 = 2) ∧
      (st.isFilterMode = true → (setPumpSpeed st 2 1 obs).2 = 1) := by
  simp only [List.getD_eq_getElem?_getD] at hr
  constructor <;> intro hf <;>
    simp [setPumpSpeed, hr, hf, ho, List.filter, List.range_succ]

/-- C5 witness: evaluated on the constructor state (whose pump 2 has speed
range 2) with a constant observed speed of 2. -/
theorem C5_witness :
    ((setPumpSpeed initialSpaState 2 1 obsConst2).2 = 2) ∧
      ((setPumpSpeed { initialSpaState with isFilterMode := true } 2 1 obsConst2).2 = 1) :=
  ⟨(C5_setPumpSpeed_presses initialSpaState obsConst2 (by decide) (fun _ => rfl)).1 rfl,
    (C5_setPumpSpeed_presses { initialSpaState with isFilterMode := true } obsConst2
      (by decide) (fun _ => rfl)).2 rfl⟩

/-! ## C6: the pump speed invariant -/

theorem getD_set_le {l : List Nat} {i v m : Nat} (hv : v ≤ m) :
    (l.set i v).getD i 0 ≤ m := by
  rcases Nat.lt_or_ge i l.length with h | h
  · simpa [List.getD_eq_getElem?_getD, List.getElem?_set_self h] using hv
  · rw [List.set_eq_of_length_le h]
    simp [List.getD_eq_getElem?_getD, List.getElem?_eq_none h]

theorem getD_set_ne {l : List Nat} (j i v : Nat) (h : j ≠ i) :
    (l.set j v).getD i 0 = l.getD i 0 := by
  simp [List.getD_eq_getElem?_getD, List.getElem?_set_ne h]

/-- C6 counterexample: the invariant holds in the constructor state, but one
status frame whose byte 8 has bit 3 set (here `bytes[8] = 8`) drives pump 3
(index 2, declared speed range 1) to decoded speed 2, violating the claimed
invariant. -/
theorem C6_counterexample :
    pumpInv initialSpaState ∧
      ¬ pumpInv (readStateFromBytes initialSpaState [0, 0, 0, 0, 0, 0, 0, 0, 8]).1 := by
  constructor
  · intro i
    match i with
    | 0 | 1 | 2 | 3 | 4 | 5 => decide
    | n + 6 => simp [initialSpaState]
  · intro h
    exact absurd (h 2) (by decide)

/-- C6 (amended): the speed ranges are fixed at the constructor values
`[0, 2, 1, 0, 0, 0]` and never mutated by any of the three operations; the
invariant `pumpsCurrentSpeed[i] ≤ pumpsSpeedRange[i]` holds initially, is
preserved by `setPumpSpeed` and `interpretControlTypesReply` unconditionally,
and by `readStateFromBytes` whenever the pump-3 field of status byte 8
decodes to a value within that pump's declared range 1 (arbitrary values of
byte 8 can violate it, see the counterexample). -/
theorem C6_pump_speed_invariant :
    pumpInv initialSpaState ∧
    (∀ (st : SpaState) (bytes : List Nat), pumpInv st →
      st.pumpsSpeedRange = [0, 2, 1, 0, 0, 0] →
      (bytes.getD 8 0 &&& 0x0c) >>> 2 ≤ 1 →
      pumpInv (readStateFromBytes st bytes).1) ∧
    (∀ (st : SpaState) (index desired : Nat) (obs : Nat → Nat), pumpInv st →
      pumpInv (setPumpSpeed st index desired obs).1) ∧
    (∀ st : SpaState, pumpInv st → pumpInv (interpretControlTypesReply st).1) ∧
    (∀ (st : SpaState) (bytes : List Nat) (index desired : Nat) (obs : Nat → Nat),
      (readStateFromBytes st bytes).1.pumpsSpeedRange = st.pumpsSpeedRange ∧
      (setPumpSpeed st index desired obs).1.pumpsSpeedRange = st.pumpsSpeedRange ∧
      (interpretControlTypesReply st).1.pumpsSpeedRange = st.pumpsSpeedRange) := by
  refine ⟨?_, ?_, ?_, ?_, ?_⟩
  · intro i
    match i with
    | 0 | 1 | 2 | 3 | 4 | 5 => decide
    | n + 6 => simp [initialSpaState]
  · intro st bytes hInv hr hb i
    have h := hInv i
    rw [hr] at h
    unfold readStateFromBytes
    dsimp only
    rw [hr]
    by_cases h2 : i = 2
    · subst h2
      exact getD_set_le hb
    · rw [getD_set_ne 2 i _ (fun hx => h2 hx.symm)]
      by_cases h1 : i = 1
      · subst h1
        refine getD_set_le ?_
        split_ifs <;> norm_num
      · rw [getD_set_ne 1 i _ (fun hx => h1 hx.symm)]
        exact h
  · intro st index desired obs hInv
    unfold setPumpSpeed
    by_cases hg1 : st.pumpsSpeedRange.getD (index - 1) 0 = 0
    · rw [if_pos hg1]
      exact hInv
    · rw [if_neg hg1]
      by_cases hg2 : desired > st.pumpsSpeedRange.getD (index - 1) 0
      · rw [if_pos hg2]
        exact hInv
      · rw [if_neg hg2]
        intro j
        dsimp only
        by_cases hj : j = index - 1
        · subst hj
          refine getD_set_le ?_
          split_ifs with hadj <;> omega
        · rw [getD_set_ne (index - 1) j _ (fun hx => hj hx.symm)]
          exact hInv j
  · intro st hInv
    unfold interpretControlTypesReply
    split_ifs <;> exact hInv
  · intro st bytes index desired obs
    refine ⟨rfl, ?_, ?_⟩
    · unfold setPumpSpeed
      dsimp only
      split_ifs <;> rfl
    · unfold interpretControlTypesReply
      split_ifs <;> rfl

/-- C6 witness: the preservation clauses applied at concrete inputs — a
status frame with byte 8 equal to 4 (pump-3 field decodes to 1), a pump
command, and a control-types reply, all from the constructor state. -/
theorem C6_witness :
    pumpInv (readStateFromBytes initialSpaState [0, 0, 0, 0, 0, 0, 0, 0, 4]).1 ∧
      pumpInv (setPumpSpeed initialSpaState 2 1 obsConst2).1 ∧
      pumpInv (interpretControlTypesReply initialSpaState).1 :=
  ⟨C6_pump_speed_invariant.2.1 initialSpaState _ C6_pump_speed_invariant.1 rfl (by decide),
    C6_pump_speed_invariant.2.2.1 initialSpaState 2 1 obsConst2 C6_pump_speed_invariant.1,
    C6_pump_speed_invariant.2.2.2.1 initialSpaState C6_pump_speed_invariant.1⟩

/-! ## C3: frame reassembly across chunk boundaries -/

/-- A chunk of at least two bytes whose declared length exceeds the available
bytes is buffered whole as the pending fragment. -/
theorem processChunk_incomplete {chunk : List Nat} (h2 : 2 ≤ chunk.length)
    (hm : chunk.getD 1 0 > chunk.length - 2) :
    processChunk chunk = ⟨[], some chunk⟩ := by
  unfold processChunk
  obtain ⟨n, hn⟩ : ∃ n, chunk.length = n + 1 := ⟨chunk.length - 1, by omega⟩
  rw [hn]
  simp only [processChunkAux]
  rw [if_neg (by omega), if_neg (by omega), if_pos hm]

set_option maxRecDepth 100000 in
/-- C3 counterexample: the claim allows a split at any position, but
splitting the valid status frame `7e 07 ff af c4 00 00 bd 7e` after its
first byte decodes nothing (the one-byte first chunk is discarded as a very
short message instead of being buffered), while feeding the whole frame
decodes it. -/
theorem C3_counterexample :
    (readAndActOnSocketContents
        (readAndActOnSocketContents none true
          ([0x7e, 7, 0xff, 0xaf, 0xc4, 0, 0, 189, 0x7e].take 1)).pending
        true ([0x7e, 7, 0xff, 0xaf, 0xc4, 0, 0, 189, 0x7e].drop 1)).frames ≠
      (readAndActOnSocketContents none true
        [0x7e, 7, 0xff, 0xaf, 0xc4, 0, 0, 189, 0x7e]).frames := by
  decide

/-- C3 (amended: the split position `k` must leave at least the sentinel and
length byte in the first chunk and at least one byte missing, i.e.
`2 ≤ k ≤ declared length + 1`; a 1-byte first chunk is discarded as a very
short message instead of being buffered): the first chunk is buffered whole;
a second chunk arriving within 1 second yields exactly the result of feeding
the whole frame at once; a second chunk arriving later discards the buffered
fragment with a warning, decoding no frame from it — the result is exactly
that of parsing the second chunk alone. -/
theorem C3_framer_split (F : List Nat) (k : Nat)
    (hwf : F.length = F.getD 1 0 + 2)
    (hk2 : 2 ≤ k) (hkL : k ≤ F.getD 1 0 + 1) :
    readAndActOnSocketContents none true (F.take k) =
      ⟨[], some (F.take k), false⟩ ∧
    readAndActOnSocketContents (some (F.take k)) true (F.drop k) =
      readAndActOnSocketContents none true F ∧
    readAndActOnSocketContents (some (F.take k)) false (F.drop k) =
      ⟨(processChunk (F.drop k)).frames, (processChunk (F.drop k)).pending, true⟩ := by
  have hlen : (F.take k).length = k := by
    rw [List.length_take]
    omega
  have hgd : (F.take k).getD 1 0 = F.getD 1 0 := by
    simp [List.getD_eq_getElem?_getD, List.getElem?_take_of_lt (by omega : 1 < k)]
  refine ⟨?_, ?_, rfl⟩
  · unfold readAndActOnSocketContents
    rw [processChunk_incomplete (by omega) (by rw [hgd, hlen]; omega)]
  · show (⟨(processChunk (F.take k ++ F.drop k)).frames,
        (processChunk (F.take k ++ F.drop k)).pending, false⟩ : FeedResult) =
      readAndActOnSocketContents none true F
    rw [List.take_append_drop]
    exact rfl

/-- C3 witness: the amended behaviour evaluated on the valid status frame
`7e 07 ff af c4 00 00 bd 7e` split after its third byte. -/
theorem C3_witness :
    ([0x7e, 7, 0xff, 0xaf, 0xc4, 0, 0, 189, 0x7e] : List Nat).length =
        [0x7e, 7, 0xff, 0xaf, 0xc4, 0, 0, 189, 0x7e].getD 1 0 + 2 ∧
      readAndActOnSocketContents none true
          ([0x7e, 7, 0xff, 0xaf, 0xc4, 0, 0, 189, 0x7e].take 3) =
        ⟨[], some ([0x7e, 7, 0xff, 0xaf, 0xc4, 0, 0, 189, 0x7e].take 3), false⟩ ∧
      readAndActOnSocketContents
          (some ([0x7e, 7, 0xff, 0xaf, 0xc4, 0, 0, 189, 0x7e].take 3)) true
          ([0x7e, 7, 0xff, 0xaf, 0xc4, 0, 0, 189, 0x7e].drop 3) =
        readAndActOnSocketContents none true [0x7e, 7, 0xff, 0xaf, 0xc4, 0, 0, 189, 0x7e] ∧
      readAndActOnSocketContents
          (some ([0x7e, 7, 0xff, 0xaf, 0xc4, 0, 0, 189, 0x7e].take 3)) false
          ([0x7e, 7, 0xff, 0xaf, 0xc4, 0, 0, 189, 0x7e].drop 3) =
        ⟨(processChunk ([0x7e, 7, 0xff, 0xaf, 0xc4, 0, 0, 189, 0x7e].drop 3)).frames,
          (processChunk ([0x7e, 7, 0xff, 0xaf, 0xc4, 0, 0, 189, 0x7e].drop 3)).pending,
          true⟩ :=
  ⟨by decide,
    (C3_framer_split [0x7e, 7, 0xff, 0xaf, 0xc4, 0, 0, 189, 0x7e] 3
      (by decide) (by decide) (by decide)).1,
    (C3_framer_split [0x7e, 7, 0xff, 0xaf, 0xc4, 0, 0, 189, 0x7e] 3
      (by decide) (by decide) (by decide)).2.1,
    (C3_framer_split [0x7e, 7, 0xff, 0xaf, 0xc4, 0, 0, 189, 0x7e] 3
      (by decide) (by decide) (by decide)).2.2⟩

/-! ## C1: the XOR cipher -/

theorem decryptLoopAux_length (key1 : Nat) :
    ∀ (n i : Nat) (key2 : Int) (p : List Nat),
      (decryptLoopAux key1 n i key2 p).length = p.length := by
  intro n
  induction n with
  | zero => intro i key2 p; rfl
  | succ m ih =>
    intro i key2 p
    simp only [decryptLoopAux]
    rw [ih, uset_length]

/-- Effect of the XOR loop on one position: positions `i ≤ j < i + n` (within
the list) are combined with `key1` and the decremented position key; all
others are untouched. -/
theorem decryptLoopAux_getD (key1 : Nat) :
    ∀ (n i : Nat) (key2 : Int) (p : List Nat) (j : Nat),
      (decryptLoopAux key1 n i key2 p).getD j 0 =
        if i ≤ j ∧ j < i + n ∧ j < p.length then
          ((p.getD j 0) ^^^ key1 ^^^
            ((key2 - ((j : Int) - (i : Int) + 1)) % 64).toNat) % 256
        else p.getD j 0 := by
  intro n
  induction n with
  | zero =>
    intro i key2 p j
    simp only [decryptLoopAux]
    rw [if_neg (by omega)]
  | succ m ih =>
    intro i key2 p j
    simp only [decryptLoopAux]
    rw [ih, uset_length]
    by_cases hij : j = i
    · subst hij
      rw [if_neg (by omega)]
      by_cases hlen : j < p.length
      · rw [if_pos ⟨Nat.le_refl j, by omega, hlen⟩, getD_uset_self hlen,
          jsMod_sixtyfour]
        have harg : (key2 - 1) % 64 = (key2 - ((j : Int) - (j : Int) + 1)) % 64 := by
          omega
        rw [harg]
      · rw [if_neg (by omega), uset, List.set_eq_of_length_le (by omega)]
    · rw [getD_uset_ne i j _ (fun hx => hij hx.symm)]
      by_cases hcond : i + 1 ≤ j ∧ j < i + 1 + m ∧ j < p.length
      · rw [if_pos hcond, if_pos (by omega), jsMod_sixtyfour]
        have harg : ((key2 - 1) % 64 - ((j : Int) - ((i + 1 : Nat) : Int) + 1)) % 64 =
            (key2 - ((j : Int) - (i : Int) + 1)) % 64 := by
          push_cast
          omega
        rw [harg]
      · rw [if_neg hcond, if_neg (by omega)]

theorem crcEncByteStep_lt (crc b : Nat) : crcEncByteStep crc b < 256 := by
  unfold crcEncByteStep
  have h := Nat.and_le_right
    (n := (List.range 8).foldl (fun c i => crcEncRoundBit c ((b >>> (7 - i)) &&& 1)) crc)
    (m := 0xff)
  omega

theorem crcEncFinalRound_lt (c : Nat) : crcEncFinalRound c < 256 := by
  unfold crcEncFinalRound
  dsimp only
  split
  · have h2 : ((c <<< 1) &&& 0xff) ^^^ 0x07 < 2 ^ 8 :=
      Nat.xor_lt_two_pow (Nat.lt_of_le_of_lt Nat.and_le_right (by norm_num))
        (by norm_num)
    simpa using h2
  · exact Nat.lt_of_le_of_lt Nat.and_le_right (by norm_num)

theorem crcEncFinal_lt {c : Nat} (h : c < 256) : crcEncFinal c < 256 := by
  unfold crcEncFinal
  have hgen : ∀ (l : List Nat) (c0 : Nat), c0 < 256 →
      l.foldl (fun c2 _ => crcEncFinalRound c2) c0 < 256 := by
    intro l
    induction l with
    | nil => intro c0 hc; exact hc
    | cons a t ih => intro c0 hc; exact ih _ (crcEncFinalRound_lt c0)
  exact hgen _ _ h

theorem compute_checksum_encrypted_lt (data : List Nat) (n : Nat) :
    compute_checksum_encrypted data n < 256 := by
  unfold compute_checksum_encrypted
  have hfold : ∀ (l : List Nat) (c0 : Nat), c0 < 256 →
      l.foldl (fun c cur => crcEncByteStep c (data.getD cur 0)) c0 < 256 := by
    intro l
    induction l with
    | nil => intro c0 hc; exact hc
    | cons a t ih => intro c0 hc; exact ih _ (crcEncByteStep_lt _ _)
  have h2 := crcEncFinal_lt (hfold (List.range n) 0xb5 (by norm_num))
  have h256 : (256 : Nat) = 2 ^ 8 := by norm_num
  rw [h256] at h2 ⊢
  exact Nat.xor_lt_two_pow h2 (by norm_num)

theorem foldl_range_congr {α : Type} (f g : α → Nat → α) :
    ∀ n : Nat, (∀ (x : α) (k : Nat), k < n → f x k = g x k) →
      ∀ init : α, (List.range n).foldl f init = (List.range n).foldl g init := by
  intro n
  induction n with
  | zero => intro h init; rfl
  | succ m ih =>
    intro h init
    rw [List.range_succ, List.foldl_append, List.foldl_append,
      ih (fun x k hk => h x k (by omega)) init]
    simp only [List.foldl_cons, List.foldl_nil]
    rw [h _ m (by omega)]

/-- The encrypted checksum only reads the first `n` entries of its data. -/
theorem compute_checksum_encrypted_congr {a b : List Nat} (n : Nat)
    (h : ∀ k, k < n → a.getD k 0 = b.getD k 0) :
    compute_checksum_encrypted a n = compute_checksum_encrypted b n := by
  unfold compute_checksum_encrypted
  rw [foldl_range_congr _ _ n (fun x k hk => by rw [h k hk]) 0xb5]

theorem decrypt_length (packet : List Nat) :
    (decrypt packet).length = packet.length := by
  unfold decrypt
  split
  · rfl
  · split
    · rfl
    · dsimp only
      rw [uset_length, uset_length, decryptLoopAux_length]

/-- The encrypted branch of `decrypt`, written out. -/
theorem decrypt_eq {packet : List Nat} {c : Nat} (h7 : 7 ≤ packet.length)
    (hc : encKey1Const (packet.getD 4 0) = some c) :
    decrypt packet =
      uset
        (uset (decryptLoopAux ((packet.getD 5 0) ^^^ c) (packet.getD 1 0 - 6) 6
            ((packet.getD 1 0 : Int) - 7) packet) 5 0)
        (packet.length - 2)
        (compute_checksum_encrypted
          ((uset (decryptLoopAux ((packet.getD 5 0) ^^^ c) (packet.getD 1 0 - 6) 6
              ((packet.getD 1 0 : Int) - 7) packet) 5 0).drop 1)
          (packet.getD 1 0 - 1)) := by
  unfold decrypt
  rw [if_neg (by omega), hc]
  dsimp only
  rw [uset_length, decryptLoopAux_length]

/-- `decrypt` leaves the five header bytes unchanged. -/
theorem decrypt_getD_low {packet : List Nat} {c : Nat} (h7 : 7 ≤ packet.length)
    (hwf : packet.length = packet.getD 1 0 + 2)
    (hc : encKey1Const (packet.getD 4 0) = some c) {j : Nat} (hj : j < 5) :
    (decrypt packet).getD j 0 = packet.getD j 0 := by
  rw [decrypt_eq h7 hc, getD_uset_ne _ _ _ (by omega), getD_uset_ne _ _ _ (by omega),
    decryptLoopAux_getD, if_neg (by omega)]

/-- `decrypt` zeroes the embedded key byte (packets long enough that the
checksum slot does not collide with it). -/
theorem decrypt_getD_key5 {packet : List Nat} {c : Nat} (h7 : 7 ≤ packet.length)
    (hwf : packet.length = packet.getD 1 0 + 2)
    (hc : encKey1Const (packet.getD 4 0) = some c) (h8 : 8 ≤ packet.length) :
    (decrypt packet).getD 5 0 = 0 := by
  rw [decrypt_eq h7 hc, getD_uset_ne _ _ _ (by omega)]
  have hl : 5 < (decryptLoopAux ((packet.getD 5 0) ^^^ c) (packet.getD 1 0 - 6) 6
      ((packet.getD 1 0 : Int) - 7) packet).length := by
    rw [decryptLoopAux_length]
    omega
  rw [getD_uset_self hl]

/-- `decrypt` on a payload byte: XOR with `key1` and the position key. -/
theorem decrypt_getD_payload {packet : List Nat} {c : Nat} (h7 : 7 ≤ packet.length)
    (hwf : packet.length = packet.getD 1 0 + 2)
    (hc : encKey1Const (packet.getD 4 0) = some c) {j : Nat}
    (hj6 : 6 ≤ j) (hjL : j < packet.getD 1 0) :
    (decrypt packet).getD j 0 =
      ((packet.getD j 0) ^^^ ((packet.getD 5 0) ^^^ c) ^^^
        ((((packet.getD 1 0 : Int) - 7) - ((j : Int) - ((6 : Nat) : Int) + 1)) % 64).toNat)
        % 256 := by
  rw [decrypt_eq h7 hc, getD_uset_ne _ _ _ (by omega), getD_uset_ne _ _ _ (by omega),
    decryptLoopAux_getD, if_pos ⟨hj6, by omega, by omega⟩]

/-- After `decrypt`, the stored checksum byte is exactly the encrypted
checksum recomputed over the rewritten packet. -/
theorem decrypt_checksum {packet : List Nat} {c : Nat} (h7 : 7 ≤ packet.length)
    (hwf : packet.length = packet.getD 1 0 + 2)
    (hc : encKey1Const (packet.getD 4 0) = some c) :
    (decrypt packet).getD ((decrypt packet).length - 2) 0 =
      compute_checksum_encrypted ((decrypt packet).drop 1)
        ((decrypt packet).getD 1 0 - 1) := by
  have hlen := decrypt_length packet
  have h1 : (decrypt packet).getD 1 0 = packet.getD 1 0 :=
    decrypt_getD_low h7 hwf hc (by omega)
  rw [hlen, h1, decrypt_eq h7 hc]
  set p2 := uset (decryptLoopAux ((packet.getD 5 0) ^^^ c) (packet.getD 1 0 - 6) 6
    ((packet.getD 1 0 : Int) - 7) packet) 5 0 with hp2def
  have hp2len : p2.length = packet.length := by
    rw [hp2def, uset_length, decryptLoopAux_length]
  rw [getD_uset_self (by omega),
    Nat.mod_eq_of_lt (compute_checksum_encrypted_lt _ _)]
  symm
  apply compute_checksum_encrypted_congr
  intro k hk
  rw [getD_drop_one, getD_drop_one, getD_uset_ne _ _ _ (by omega)]

/-- C1 (amended: the embedded key byte at offset 5 must be zero — which
holds for every frame the transform itself has produced and for every
outbound frame, since encryption inserts a zero key byte; a frame arriving
with a nonzero key byte has that byte zeroed by the first pass, so the
second pass uses different key material and the payload is not restored, see
the counterexample): for every well-formed frame of an encrypted type
(`0xc4`, `0xca`, `0xcc` at offset 4) with byte values below 256, length at
least 7 and key byte 0, applying the XOR transform twice restores every
payload byte, and after either pass the checksum byte at position
`length - 2` equals the encrypted checksum recomputed over the transformed
frame. -/
theorem C1_decrypt_involution (p : List Nat)
    (hb : ∀ x ∈ p, x < 256)
    (hwf : p.length = p.getD 1 0 + 2)
    (h7 : 7 ≤ p.length)
    (ht : p.getD 4 0 = 0xc4 ∨ p.getD 4 0 = 0xca ∨ p.getD 4 0 = 0xcc)
    (hk : p.getD 5 0 = 0) :
    (∀ j, 6 ≤ j → j < p.getD 1 0 →
      (decrypt (decrypt p)).getD j 0 = p.getD j 0) ∧
    (decrypt p).getD ((decrypt p).length - 2) 0 =
      compute_checksum_encrypted ((decrypt p).drop 1) ((decrypt p).getD 1 0 - 1) ∧
    (decrypt (decrypt p)).getD ((decrypt (decrypt p)).length - 2) 0 =
      compute_checksum_encrypted ((decrypt (decrypt p)).drop 1)
        ((decrypt (decrypt p)).getD 1 0 - 1) := by
  obtain ⟨c, hc, hclt⟩ : ∃ c, encKey1Const (p.getD 4 0) = some c ∧ c < 256 := by
    rcases ht with h | h | h
    · exact ⟨0x19, by rw [h]; decide, by norm_num⟩
    · exact ⟨0x59, by rw [h]; decide, by norm_num⟩
    · exact ⟨0xdf, by rw [h]; decide, by norm_num⟩
  have hqlen : (decrypt p).length = p.length := decrypt_length p
  have hq1 : (decrypt p).getD 1 0 = p.getD 1 0 :=
    decrypt_getD_low h7 hwf hc (by omega)
  have hq4 : (decrypt p).getD 4 0 = p.getD 4 0 :=
    decrypt_getD_low h7 hwf hc (by omega)
  have hqc : encKey1Const ((decrypt p).getD 4 0) = some c := by rw [hq4]; exact hc
  have hqwf : (decrypt p).length = (decrypt p).getD 1 0 + 2 := by
    rw [hqlen, hq1]; exact hwf
  have hq7 : 7 ≤ (decrypt p).length := by rw [hqlen]; exact h7
  refine ⟨?_, decrypt_checksum h7 hwf hc, decrypt_checksum hq7 hqwf hqc⟩
  intro j hj6 hjL
  have h8 : 8 ≤ p.length := by omega
  have hq5 : (decrypt p).getD 5 0 = 0 := decrypt_getD_key5 h7 hwf hc h8
  rw [decrypt_getD_payload hq7 hqwf hqc hj6 (by rw [hq1]; exact hjL), hq1, hq5,
    decrypt_getD_payload h7 hwf hc hj6 hjL, hk]
  have hjlen : j < p.length := by omega
  have ha : p.getD j 0 < 256 := by
    rw [List.getD_eq_getElem?_getD, List.getElem?_eq_getElem hjlen]
    exact hb _ (List.getElem_mem hjlen)
  have hK : ((((p.getD 1 0 : Int) - 7) - ((j : Int) - ((6 : Nat) : Int) + 1)) % 64).toNat
      < 256 := by
    push_cast
    omega
  have h256 : (256 : Nat) = 2 ^ 8 := by norm_num
  have hxlt : (p.getD j 0) ^^^ (0 ^^^ c) ^^^
      ((((p.getD 1 0 : Int) - 7) - ((j : Int) - ((6 : Nat) : Int) + 1)) % 64).toNat
      < 256 := by
    rw [h256]
    refine Nat.xor_lt_two_pow (Nat.xor_lt_two_pow ?_ ?_) ?_ <;>
      rw [← h256]
    · exact ha
    · rw [Nat.zero_xor]; exact hclt
    · exact hK
  rw [Nat.mod_eq_of_lt hxlt, Nat.zero_xor,
    Nat.xor_assoc (p.getD j 0) c _, Nat.xor_assoc _ c _, Nat.xor_cancel_right]
  exact Nat.mod_eq_of_lt ha

set_option maxRecDepth 100000 in
/-- C1 counterexample: the frame `7e 07 ff af c4 01 00 00 7e` is well-formed
(type `0xc4`, length 9 ≥ 7) but carries the key byte `0x01`; applying the
XOR transform twice turns its payload byte at offset 6 from `0x00` into
`0x01`, so the claim fails for frames with a nonzero key byte. -/
theorem C1_counterexample :
    ([0x7e, 7, 0xff, 0xaf, 0xc4, 1, 0, 0, 0x7e] : List Nat).getD 4 0 = 0xc4 ∧
      ([0x7e, 7, 0xff, 0xaf, 0xc4, 1, 0, 0, 0x7e] : List Nat).length =
        [0x7e, 7, 0xff, 0xaf, 0xc4, 1, 0, 0, 0x7e].getD 1 0 + 2 ∧
      (decrypt (decrypt [0x7e, 7, 0xff, 0xaf, 0xc4, 1, 0, 0, 0x7e])).getD 6 0 ≠
        ([0x7e, 7, 0xff, 0xaf, 0xc4, 1, 0, 0, 0x7e] : List Nat).getD 6 0 := by
  decide

set_option maxRecDepth 100000 in
/-- C1 witness: the amended involution evaluated on the concrete frame
`7e 07 ff af c4 00 05 00 7e` (key byte zero, payload byte `0x05`). -/
theorem C1_witness :
    (∀ x ∈ ([0x7e, 7, 0xff, 0xaf, 0xc4, 0, 5, 0, 0x7e] : List Nat), x < 256) ∧
      (∀ j, 6 ≤ j → j < ([0x7e, 7, 0xff, 0xaf, 0xc4, 0, 5, 0, 0x7e] : List Nat).getD 1 0 →
        (decrypt (decrypt [0x7e, 7, 0xff, 0xaf, 0xc4, 0, 5, 0, 0x7e])).getD j 0 =
          ([0x7e, 7, 0xff, 0xaf, 0xc4, 0, 5, 0, 0x7e] : List Nat).getD j 0) ∧
      (decrypt [0x7e, 7, 0xff, 0xaf, 0xc4, 0, 5, 0, 0x7e]).getD
          ((decrypt [0x7e, 7, 0xff, 0xaf, 0xc4, 0, 5, 0, 0x7e]).length - 2) 0 =
        compute_checksum_encrypted
          ((decrypt [0x7e, 7, 0xff, 0xaf, 0xc4, 0, 5, 0, 0x7e]).drop 1)
          ((decrypt [0x7e, 7, 0xff, 0xaf, 0xc4, 0, 5, 0, 0x7e]).getD 1 0 - 1) :=
  ⟨by decide,
    (C1_decrypt_involution [0x7e, 7, 0xff, 0xaf, 0xc4, 0, 5, 0, 0x7e]
      (by decide) (by decide) (by decide) (by decide) (by decide)).1,
    (C1_decrypt_involution [0x7e, 7, 0xff, 0xaf, 0xc4, 0, 5, 0, 0x7e]
      (by decide) (by decide) (by decide) (by decide) (by decide)).2.1⟩

end SpaPlugin
